import Mathlib

/-!
Verification development for the AutoVedio pipeline.

The Python sources are shallowly embedded here:
* text is modelled as `List Char` (Python strings are sequences of code
  points, and `len`/slicing act on code points);
* Item records (Python dicts) are modelled as a structure over the known
  field schema; a missing key and an empty/`None` value are conflated for
  the string fields, exactly as the code's truthiness tests do;
* durations (Python floats) are modelled as exact rationals;
* external collaborators (LLM calls, image generation, speech synthesis,
  the media library) are modelled as oracle parameters: an `Option`-valued
  oracle result `none` stands for a raised exception / failed call.
-/

namespace AutoVedio

open scoped List

abbrev Text := List Char

/-- Python `str.strip()` whitespace (the ASCII whitespace characters). -/
def isWS (c : Char) : Bool :=
  c == ' ' || c == '\t' || c == '\n' || c == '\r' || c == '\x0b' || c == '\x0c'

/-- Python `s.strip()`: drop whitespace from both ends. -/
def pyStrip (l : Text) : Text :=
  ((l.dropWhile isWS).reverse.dropWhile isWS).reverse

/-- The non-whitespace content of a string; used to state that the
segmenter loses nothing but incidental whitespace. -/
def filterNW (l : Text) : Text :=
  l.filter (fun c => !isWS c)

/-- Sentence-terminal punctuation of the first segmentation pass
(`re.split(r'([。！？])', text)` in `utils.split_text_by_length`). -/
def isSentEnd (c : Char) : Bool :=
  c == '。' || c == '！' || c == '？'

/-- Comma-level punctuation of the second segmentation pass
(`re.split(r'([，；])', part)`). -/
def isCommaSep (c : Char) : Bool :=
  c == '，' || c == '；'

/-- `re.split` with a single-character capturing group: returns the
alternating list `[text0, sep0, text1, sep1, ..., textN]`. -/
def reSplitCap (isSep : Char → Bool) : Text → List Text
  | [] => [[]]
  | c :: rest =>
    if isSep c then [] :: [c] :: reSplitCap isSep rest
    else
      match reSplitCap isSep rest with
      | [] => [[c]]
      | p :: ps => (c :: p) :: ps

/-- The first recombination loop of `split_text_by_length`: pair each text
piece with the separator that follows it; the trailing unpaired piece is
kept only when its stripped form is non-empty. -/
def pairSent : List Text → List Text
  | [] => []
  | [t] => if (pyStrip t).isEmpty then [] else [t]
  | t :: s :: rest => (t ++ s) :: pairSent rest

/-- The second recombination loop (over comma sub-parts): pair each text
piece with the separator that follows it; the trailing piece is always
kept. -/
def pairComma : List Text → List Text
  | [] => []
  | [t] => [t]
  | t :: s :: rest => (t ++ s) :: pairComma rest

/-- The `while len(current) > max_chars` hard-cut loop, with explicit fuel.
Fuel `cur.length` is enough whenever `0 < max`, because each iteration
removes `max` characters; the source loop does not terminate when
`max = 0`, a case the spec's positive `max_chars` excludes. -/
def hardCutAux (max : ℕ) : ℕ → Text → List Text × Text
  | 0, cur => ([], cur)
  | fuel + 1, cur =>
    if max < cur.length then
      let r := hardCutAux max fuel (cur.drop max)
      (cur.take max :: r.1, r.2)
    else ([], cur)

def hardCut (max : ℕ) (cur : Text) : List Text × Text :=
  hardCutAux max cur.length cur

/-- The greedy accumulation loop over comma sub-segments: `res` is the
chunks emitted so far, `cur` the running buffer. -/
def accumSubs (max : ℕ) : List Text → List Text → Text → List Text × Text
  | [], res, cur => (res, cur)
  | seg :: rest, res, cur =>
    if (cur ++ seg).length ≤ max then
      accumSubs max rest res (cur ++ seg)
    else
      let res1 := if cur.isEmpty then res else res ++ [pyStrip cur]
      let hc := hardCut max seg
      accumSubs max rest (res1 ++ hc.1) hc.2

/-- Second pass of `split_text_by_length` on a first-pass part that is
still longer than `max_chars`. -/
def splitLongPart (max : ℕ) (part : Text) : List Text :=
  let subs := pairComma (reSplitCap isCommaSep part)
  let rc := accumSubs max subs [] []
  if rc.2.isEmpty then rc.1 else rc.1 ++ [pyStrip rc.2]

/-- Per-part dispatch of the second pass. -/
def processPart (max : ℕ) (part : Text) : List Text :=
  if part.length ≤ max then [part] else splitLongPart max part

/-- `utils.split_text_by_length(text, max_chars)`. -/
def split_text_by_length (text : Text) (max_chars : ℕ) : List Text :=
  if text.isEmpty ∨ text.length ≤ max_chars then [text]
  else
    let parts := (pairSent (reSplitCap isSentEnd text)).filterMap
      (fun p => let q := pyStrip p; if q.isEmpty then none else some q)
    ((parts.map (processPart max_chars)).flatten).filter (fun r => !r.isEmpty)

/-! ### Lemmas about stripping and whitespace -/

theorem pyStrip_nil : pyStrip [] = [] := rfl

theorem pyStrip_sublist (l : Text) : pyStrip l <+ l := by
  have h2 : ((l.dropWhile isWS).reverse.dropWhile isWS).reverse <+
      (l.dropWhile isWS).reverse.reverse :=
    (List.dropWhile_sublist _).reverse
  rw [List.reverse_reverse] at h2
  exact h2.trans (List.dropWhile_sublist _)

theorem length_pyStrip_le (l : Text) : (pyStrip l).length ≤ l.length :=
  (pyStrip_sublist l).length_le

theorem filterNW_append (l r : Text) : filterNW (l ++ r) = filterNW l ++ filterNW r :=
  List.filter_append ..

theorem filterNW_reverse (l : Text) : filterNW l.reverse = (filterNW l).reverse :=
  List.filter_reverse _ _

theorem filterNW_dropWhile (l : Text) : filterNW (l.dropWhile isWS) = filterNW l := by
  induction l with
  | nil => rfl
  | cons c rest ih =>
    by_cases h : isWS c
    · simp [List.dropWhile_cons, filterNW, List.filter_cons, h] at *
      exact ih
    · simp [List.dropWhile_cons, h]

theorem filterNW_pyStrip (l : Text) : filterNW (pyStrip l) = filterNW l := by
  unfold pyStrip
  rw [filterNW_reverse, filterNW_dropWhile, filterNW_reverse, List.reverse_reverse,
    filterNW_dropWhile]

theorem filterNW_of_pyStrip_empty {l : Text} (h : (pyStrip l).isEmpty) : filterNW l = [] := by
  rw [← filterNW_pyStrip, List.isEmpty_iff.mp h]
  rfl

/-! ### First pass: sentence-level split -/

theorem flatten_reSplitCap (isSep : Char → Bool) : ∀ l : Text, (reSplitCap isSep l).flatten = l
  | [] => by simp [reSplitCap]
  | c :: rest => by
    have ih := flatten_reSplitCap isSep rest
    by_cases h : isSep c
    · simp [reSplitCap, h, ih]
    · simp only [reSplitCap, h, if_neg, Bool.false_eq_true, ite_false]
      cases hr : reSplitCap isSep rest with
      | nil => rw [hr] at ih; simpa using ih.symm ▸ rfl
      | cons p ps =>
        rw [hr] at ih
        simpa using ih

theorem pairSent_flatten_sublist : ∀ ps : List Text, (pairSent ps).flatten <+ ps.flatten
  | [] => by simp [pairSent]
  | [t] => by
    by_cases h : (pyStrip t).isEmpty <;> simp [pairSent, h]
  | t :: s :: rest => by
    have ih := pairSent_flatten_sublist rest
    simp only [pairSent, List.flatten_cons]
    rw [← List.append_assoc]
    exact ih.append_left (t ++ s)

theorem pairSent_flatten_filterNW : ∀ ps : List Text,
    filterNW (pairSent ps).flatten = filterNW ps.flatten
  | [] => rfl
  | [t] => by
    by_cases h : (pyStrip t).isEmpty
    · simp only [pairSent, h, if_pos, List.flatten_nil, List.flatten_cons, List.append_nil]
      rw [filterNW_of_pyStrip_empty h]
      rfl
    · simp [pairSent, h]
  | t :: s :: rest => by
    have ih := pairSent_flatten_filterNW rest
    simp only [pairSent, List.flatten_cons, filterNW_append, ih, List.append_assoc]

theorem pairComma_flatten : ∀ ps : List Text, (pairComma ps).flatten = ps.flatten
  | [] => rfl
  | [t] => by simp [pairComma]
  | t :: s :: rest => by
    have ih := pairComma_flatten rest
    simp [pairComma, ih]

/-! ### Hard cut and greedy accumulation -/

theorem hardCutAux_flatten (max : ℕ) : ∀ (fuel : ℕ) (cur : Text),
    (hardCutAux max fuel cur).1.flatten ++ (hardCutAux max fuel cur).2 = cur
  | 0, cur => by simp [hardCutAux]
  | fuel + 1, cur => by
    by_cases h : max < cur.length
    · have ih := hardCutAux_flatten max fuel (cur.drop max)
      simp only [hardCutAux, h, if_pos, List.flatten_cons]
      rw [List.append_assoc, ih, List.take_append_drop]
    · simp [hardCutAux, h]

theorem hardCutAux_pieces_le (max : ℕ) : ∀ (fuel : ℕ) (cur p : Text),
    p ∈ (hardCutAux max fuel cur).1 → p.length ≤ max
  | 0, cur, p => by simp [hardCutAux]
  | fuel + 1, cur, p => by
    by_cases h : max < cur.length
    · simp only [hardCutAux, h, if_pos, List.mem_cons]
      rintro (rfl | hp)
      · rw [List.length_take]
        exact Nat.min_le_left _ _
      · exact hardCutAux_pieces_le max fuel (cur.drop max) p hp
    · simp [hardCutAux, h]

theorem hardCutAux_rest_le (max : ℕ) (hmax : 0 < max) : ∀ (fuel : ℕ) (cur : Text),
    cur.length ≤ fuel → ((hardCutAux max fuel cur).2).length ≤ max
  | 0, cur, hle => by
    simp only [hardCutAux]
    omega
  | fuel + 1, cur, hle => by
    by_cases h : max < cur.length
    · simp only [hardCutAux, h, if_pos]
      exact hardCutAux_rest_le max hmax fuel (cur.drop max) (by simp; omega)
    · simp only [hardCutAux, h, if_neg, Bool.false_eq_true, ite_false]
      omega

theorem hardCut_flatten (max : ℕ) (cur : Text) :
    (hardCut max cur).1.flatten ++ (hardCut max cur).2 = cur :=
  hardCutAux_flatten max cur.length cur

theorem hardCut_pieces_le (max : ℕ) (cur p : Text) (hp : p ∈ (hardCut max cur).1) :
    p.length ≤ max :=
  hardCutAux_pieces_le max cur.length cur p hp

theorem hardCut_rest_le (max : ℕ) (hmax : 0 < max) (cur : Text) :
    ((hardCut max cur).2).length ≤ max :=
  hardCutAux_rest_le max hmax cur.length cur le_rfl

theorem accumSubs_bound (max : ℕ) (hmax : 0 < max) : ∀ (subs res : List Text) (cur : Text),
    (∀ r ∈ res, r.length ≤ max) → cur.length ≤ max →
    (∀ r ∈ (accumSubs max subs res cur).1, r.length ≤ max) ∧
      ((accumSubs max subs res cur).2).length ≤ max
  | [], res, cur, hres, hcur => ⟨hres, hcur⟩
  | seg :: rest, res, cur, hres, hcur => by
    by_cases h : (cur ++ seg).length ≤ max
    · simp only [accumSubs, h, if_pos]
      exact accumSubs_bound max hmax rest res (cur ++ seg) hres h
    · simp only [accumSubs, h, if_neg, Bool.false_eq_true, ite_false]
      apply accumSubs_bound max hmax rest
      · intro r hr
        rcases List.mem_append.mp hr with hr | hr
        · by_cases hc : cur.isEmpty
          · simp only [hc, if_pos] at hr
            exact hres r hr
          · simp only [hc, Bool.false_eq_true, if_neg, ite_false] at hr
            rcases List.mem_append.mp hr with hr | hr
            · exact hres r hr
            · rcases List.mem_singleton.mp hr with rfl
              exact (length_pyStrip_le cur).trans hcur
        · exact hardCut_pieces_le max seg r hr
      · exact hardCut_rest_le max hmax seg

theorem accumSubs_content (max : ℕ) : ∀ (subs res : List Text) (cur : Text),
    ((accumSubs max subs res cur).1.flatten ++ (accumSubs max subs res cur).2 <+
      res.flatten ++ (cur ++ subs.flatten)) ∧
    filterNW ((accumSubs max subs res cur).1.flatten ++ (accumSubs max subs res cur).2) =
      filterNW (res.flatten ++ (cur ++ subs.flatten))
  | [], res, cur => by
    simp [accumSubs]
  | seg :: rest, res, cur => by
    by_cases h : (cur ++ seg).length ≤ max
    · simp only [accumSubs, h, if_pos]
      have ih := accumSubs_content max rest res (cur ++ seg)
      simpa [List.append_assoc] using ih
    · simp only [accumSubs, h, if_neg, Bool.false_eq_true, ite_false]
      have ih := accumSubs_content max rest
        ((if cur.isEmpty then res else res ++ [pyStrip cur]) ++ (hardCut max seg).1)
        (hardCut max seg).2
      have hres1 : ((if cur.isEmpty then res else res ++ [pyStrip cur]) : List Text).flatten =
          res.flatten ++ pyStrip cur := by
        by_cases hc : cur.isEmpty
        · have hnil : pyStrip cur = [] := by
            rw [List.isEmpty_iff.mp hc]
            rfl
          simp [hc, hnil]
        · simp [hc]
      rcases ih with ⟨ihs, ihf⟩
      rw [List.flatten_append, hres1] at ihs ihf
      have hmid : res.flatten ++ pyStrip cur ++ (hardCut max seg).1.flatten ++
          ((hardCut max seg).2 ++ rest.flatten) <+
          res.flatten ++ (cur ++ (seg ++ rest.flatten)) := by
        have hseg : (hardCut max seg).1.flatten ++ ((hardCut max seg).2 ++ rest.flatten) =
            seg ++ rest.flatten := by
          rw [← List.append_assoc, hardCut_flatten]
        rw [List.append_assoc, List.append_assoc, hseg]
        exact ((pyStrip_sublist cur).append_right (seg ++ rest.flatten)).append_left res.flatten
      have hfmid : filterNW (res.flatten ++ pyStrip cur ++ (hardCut max seg).1.flatten ++
          ((hardCut max seg).2 ++ rest.flatten)) =
          filterNW (res.flatten ++ (cur ++ (seg ++ rest.flatten))) := by
        have hseg : (hardCut max seg).1.flatten ++ ((hardCut max seg).2 ++ rest.flatten) =
            seg ++ rest.flatten := by
          rw [← List.append_assoc, hardCut_flatten]
        rw [List.append_assoc, List.append_assoc, hseg]
        simp [filterNW_append, filterNW_pyStrip]
      constructor
      · rw [List.flatten_cons]
        exact ihs.trans hmid
      · rw [List.flatten_cons, ihf]
        exact hfmid

theorem splitLongPart_bound (max : ℕ) (hmax : 0 < max) (part : Text) :
    ∀ r ∈ splitLongPart max part, r.length ≤ max := by
  intro r hr
  unfold splitLongPart at hr
  have h := accumSubs_bound max hmax (pairComma (reSplitCap isCommaSep part)) [] []
    (by intro x hx; cases hx) (Nat.zero_le max)
  by_cases hc : (accumSubs max (pairComma (reSplitCap isCommaSep part)) [] []).2.isEmpty
  · simp only [hc, if_pos] at hr
    exact h.1 r hr
  · simp only [hc, Bool.false_eq_true, if_neg, ite_false] at hr
    rcases List.mem_append.mp hr with hr | hr
    · exact h.1 r hr
    · rcases List.mem_singleton.mp hr with rfl
      exact (length_pyStrip_le _).trans h.2

theorem splitLongPart_content (max : ℕ) (part : Text) :
    (splitLongPart max part).flatten <+ part ∧
      filterNW (splitLongPart max part).flatten = filterNW part := by
  have hin : (pairComma (reSplitCap isCommaSep part)).flatten = part := by
    rw [pairComma_flatten, flatten_reSplitCap]
  have h := accumSubs_content max (pairComma (reSplitCap isCommaSep part)) [] []
  rw [List.flatten_nil, List.nil_append, List.nil_append, hin] at h
  unfold splitLongPart
  by_cases hc : (accumSubs max (pairComma (reSplitCap isCommaSep part)) [] []).2.isEmpty
  · have hnil : (accumSubs max (pairComma (reSplitCap isCommaSep part)) [] []).2 = [] :=
      List.isEmpty_iff.mp hc
    rw [hnil, List.append_nil] at h
    simpa [hc] using h
  · simp only [hc, Bool.false_eq_true, if_neg, ite_false, List.flatten_append,
      List.flatten_cons, List.flatten_nil, List.append_nil]
    constructor
    · refine List.Sublist.trans ?_ h.1
      exact List.Sublist.append_left (pyStrip_sublist _) _
    · rw [← h.2, filterNW_append, filterNW_append, filterNW_pyStrip]

theorem processPart_bound (max : ℕ) (hmax : 0 < max) (part : Text) :
    ∀ r ∈ processPart max part, r.length ≤ max := by
  intro r hr
  unfold processPart at hr
  by_cases h : part.length ≤ max
  · simp only [h, if_pos, List.mem_singleton] at hr
    exact hr ▸ h
  · simp only [h, if_neg, ite_false] at hr
    exact splitLongPart_bound max hmax part r hr

theorem processPart_content (max : ℕ) (part : Text) :
    (processPart max part).flatten <+ part ∧
      filterNW (processPart max part).flatten = filterNW part := by
  unfold processPart
  by_cases h : part.length ≤ max
  · simp [h]
  · simp only [h, if_neg, ite_false]
    exact splitLongPart_content max part

/-- The strip-and-filter list comprehension between the two passes. -/
theorem stripParts_content : ∀ ps : List Text,
    ((ps.filterMap (fun p => let q := pyStrip p; if q.isEmpty then none else some q)).flatten
        <+ ps.flatten) ∧
      filterNW (ps.filterMap
          (fun p => let q := pyStrip p; if q.isEmpty then none else some q)).flatten =
        filterNW ps.flatten
  | [] => by simp
  | p :: ps => by
    have ih := stripParts_content ps
    by_cases h : (pyStrip p).isEmpty
    · simp only [List.filterMap_cons, h, if_pos, List.flatten_cons, filterNW_append]
      constructor
      · exact List.sublist_append_of_sublist_right ih.1
      · rw [filterNW_of_pyStrip_empty h, List.nil_append, ih.2]
    · simp only [List.filterMap_cons, h, Bool.false_eq_true, if_neg, ite_false,
        List.flatten_cons, filterNW_append]
      exact ⟨(pyStrip_sublist p).append ih.1, by rw [filterNW_pyStrip, ih.2]⟩

theorem mapProcess_content (max : ℕ) : ∀ parts : List Text,
    ((parts.map (processPart max)).flatten).flatten <+ parts.flatten ∧
      filterNW ((parts.map (processPart max)).flatten).flatten = filterNW parts.flatten
  | [] => by simp
  | p :: parts => by
    have ih := mapProcess_content max parts
    have hp := processPart_content max p
    simp only [List.map_cons, List.flatten_cons, List.flatten_append, filterNW_append]
    exact ⟨hp.1.append ih.1, by rw [hp.2, ih.2]⟩

theorem flatten_filter_nonempty : ∀ l : List Text,
    ((l.filter (fun r => !r.isEmpty)).flatten) = l.flatten
  | [] => rfl
  | r :: l => by
    have ih := flatten_filter_nonempty l
    by_cases h : r.isEmpty
    · have : r = [] := List.isEmpty_iff.mp h
      simp [List.filter_cons, h, this, ih]
    · simp [List.filter_cons, h, ih]

/-- C1: for every input caption and positive `max_chars`, every chunk
returned by `split_text_by_length` has length at most `max_chars` (the
hard-cut pieces are exactly `max_chars` long, so even the atomic-oversized
exception the claim allows in fact satisfies the bound); concatenating the
chunks in order is the original text with only whitespace characters
removed (a sublist of the text whose non-whitespace content is exactly the
text's), so chunk order preserves the original reading order. -/
theorem split_text_by_length_spec (text : Text) (max_chars : ℕ) (hmax : 0 < max_chars) :
    (∀ c ∈ split_text_by_length text max_chars, c.length ≤ max_chars) ∧
      (split_text_by_length text max_chars).flatten <+ text ∧
      filterNW (split_text_by_length text max_chars).flatten = filterNW text := by
  unfold split_text_by_length
  by_cases h : text.isEmpty ∨ text.length ≤ max_chars
  · simp only [h, if_pos]
    refine ⟨?_, by simp, by simp⟩
    intro c hc
    rcases List.mem_singleton.mp hc with rfl
    rcases h with h | h
    · rw [List.isEmpty_iff.mp h]
      exact Nat.zero_le _
    · exact h
  · simp only [h, if_neg, ite_false]
    have hparts := stripParts_content (pairSent (reSplitCap isSentEnd text))
    have hpair := pairSent_flatten_sublist (reSplitCap isSentEnd text)
    have hpairf := pairSent_flatten_filterNW (reSplitCap isSentEnd text)
    rw [flatten_reSplitCap] at hpair hpairf
    have hmap := mapProcess_content max_chars
      ((pairSent (reSplitCap isSentEnd text)).filterMap
        (fun p => let q := pyStrip p; if q.isEmpty then none else some q))
    refine ⟨?_, ?_, ?_⟩
    · intro c hc
      rw [List.mem_filter] at hc
      rcases List.mem_flatten.mp hc.1 with ⟨chunks, hchunks, hcin⟩
      rcases List.mem_map.mp hchunks with ⟨part, _, rfl⟩
      exact processPart_bound max_chars hmax part c hcin
    · rw [flatten_filter_nonempty]
      exact hmap.1.trans (hparts.1.trans hpair)
    · rw [flatten_filter_nonempty, hmap.2, hparts.2, hpairf]

/-- Witness for C1 at the spec's segmenter scenario caption with
`max_chars = 20`. -/
theorem split_text_by_length_spec_witness :
    0 < 20 ∧
      ((∀ c ∈ split_text_by_length
          "这是第一句。这是第二句，它很长很长很长很长很长很长很长很长很长很长。".toList 20,
            c.length ≤ 20) ∧
        (split_text_by_length
          "这是第一句。这是第二句，它很长很长很长很长很长很长很长很长很长很长。".toList 20).flatten <+
          "这是第一句。这是第二句，它很长很长很长很长很长很长很长很长很长很长。".toList ∧
        filterNW (split_text_by_length
          "这是第一句。这是第二句，它很长很长很长很长很长很长很长很长很长很长。".toList 20).flatten =
          filterNW "这是第一句。这是第二句，它很长很长很长很长很长很长很长很长很长很长。".toList) :=
  ⟨by decide,
    split_text_by_length_spec
      "这是第一句。这是第二句，它很长很长很长很长很长很长很长很长很长很长。".toList 20 (by decide)⟩

/-! ### Items

A Python Item is a dict over the known field schema.  String fields use
`""` for both a missing key and an empty/`None` value — every access in
the sources goes through `item.get(k)`/`item.get(k, '')` truthiness, which
identifies the three.  `duration` is `Option ℚ` (`none` for missing/`None`),
and `splitIndex` models the `_split_index` key (`none` for missing or
`None`-valued). -/

structure Item where
  title : String := ""
  subtitle : String := ""
  TextTop : String := ""
  TextBottom : String := ""
  Prompt : String := ""
  Image : String := ""
  audio : String := ""
  duration : Option ℚ := none
  splitIndex : Option String := none
deriving DecidableEq

/-- Indexed map mirroring Python's `for i, item in enumerate(items)` loops. -/
def mapWithIndex (f : ℕ → α → β) : ℕ → List α → List β
  | _, [] => []
  | i, a :: as => f i a :: mapWithIndex f (i + 1) as

theorem mapWithIndex_map_eq (f : ℕ → α → β) (g : β → α) (hfg : ∀ i a, g (f i a) = a) :
    ∀ (n : ℕ) (l : List α), (mapWithIndex f n l).map g = l
  | _, [] => rfl
  | n, a :: as => by
    simp [mapWithIndex, hfg, mapWithIndex_map_eq f g hfg (n + 1) as]

theorem mapWithIndex_length (f : ℕ → α → β) :
    ∀ (n : ℕ) (l : List α), (mapWithIndex f n l).length = l.length
  | _, [] => rfl
  | n, a :: as => by
    simp [mapWithIndex, mapWithIndex_length f (n + 1) as]

theorem mapWithIndex_mem (f : ℕ → α → β) :
    ∀ (n : ℕ) (l : List α) (b : β), b ∈ mapWithIndex f n l → ∃ i a, a ∈ l ∧ b = f i a
  | _, [], b => by simp [mapWithIndex]
  | n, a :: as, b => by
    simp only [mapWithIndex, List.mem_cons]
    rintro (rfl | hb)
    · exact ⟨n, a, Or.inl rfl, rfl⟩
    · rcases mapWithIndex_mem f (n + 1) as b hb with ⟨i, x, hx, rfl⟩
      exact ⟨i, x, Or.inr hx, rfl⟩

theorem mapWithIndex_get (f : ℕ → α → β) :
    ∀ (n : ℕ) (l : List α) (k : ℕ) (hk : k < (mapWithIndex f n l).length)
      (hk2 : k < l.length),
      (mapWithIndex f n l).get ⟨k, hk⟩ = f (n + k) (l.get ⟨k, hk2⟩)
  | n, a :: as, 0, hk, hk2 => by simp [mapWithIndex]
  | n, a :: as, k + 1, hk, hk2 => by
    simp only [mapWithIndex, List.get_cons_succ]
    rw [mapWithIndex_get f (n + 1) as k _ (Nat.lt_of_succ_lt_succ hk2)]
    congr 1
    omega

/-! ### `utils.split_item_if_needed` -/

/-- String-level wrapper of the splitter (`split_text_by_length` applied to
a Python string). -/
def split_text_str (s : String) (max_chars : ℕ) : List String :=
  (split_text_by_length s.toList max_chars).map String.mk

/-- `path.replace('\\', '/')`. -/
def replaceBackslash (l : Text) : Text :=
  l.map (fun c => if c == '\\' then '/' else c)

/-- `path.split('/')[-1]`. -/
def afterLastSlash (l : Text) : Text :=
  l.foldl (fun acc c => if c == '/' then [] else acc ++ [c]) []

/-- A match of `audio_(\d+)` anchored at the head of `l`, returning the
captured (maximal) digit run. -/
def audioIndexAt (l : Text) : Option Text :=
  match l with
  | 'a' :: 'u' :: 'd' :: 'i' :: 'o' :: '_' :: tail =>
    let ds := tail.takeWhile (fun c => c.isDigit)
    if ds.isEmpty then none else some ds
  | _ => none

/-- `re.search(r'audio_(\d+)', l)`: leftmost match. -/
def searchAudioIndex : Text → Option Text
  | [] => none
  | c :: rest =>
    match audioIndexAt (c :: rest) with
    | some ds => some ds
    | none => searchAudioIndex rest

/-- The base-index extraction of `split_item_if_needed`: file name of the
audio path, searched for `audio_(\d+)`; `none` when the item has no audio
path or the pattern does not occur. -/
def extractBaseIndex (audio : String) : Option String :=
  if audio = "" then none
  else (searchAudioIndex (afterLastSlash (replaceBackslash audio.toList))).map
    (fun ds => String.mk ds)

/-- `utils.split_item_if_needed(item, max_chars)`.  The Python `pop` of
`audio`/`duration` is the `""`/`none` resets; `_split_index = None` (no
base index) is modelled as `none`. -/
def split_item_if_needed (item : Item) (max_chars : ℕ) : List Item :=
  if item.subtitle = "" ∨ item.subtitle.length ≤ max_chars then [item]
  else
    let split_subtitles := split_text_str item.subtitle max_chars
    if split_subtitles.length ≤ 1 then [item]
    else
      let base := extractBaseIndex item.audio
      mapWithIndex
        (fun i sub =>
          { item with
              subtitle := sub
              audio := ""
              duration := none
              splitIndex := base.map (fun b => b ++ "_" ++ toString (i + 1)) })
        0 split_subtitles

/-- C9: an Item whose subtitle is empty or no longer than `max_chars` is
returned unchanged as a singleton, and the subtitles of the result are
either the unchanged original or exactly the splitter's chunks, in the
splitter's (original reading) order. -/
theorem split_item_if_needed_short_and_order (item : Item) (max_chars : ℕ) :
    ((item.subtitle = "" ∨ item.subtitle.length ≤ max_chars) →
        split_item_if_needed item max_chars = [item]) ∧
      ((split_item_if_needed item max_chars).map Item.subtitle = [item.subtitle] ∨
        (split_item_if_needed item max_chars).map Item.subtitle =
          split_text_str item.subtitle max_chars) := by
  constructor
  · intro h
    unfold split_item_if_needed
    simp [h]
  · unfold split_item_if_needed
    by_cases h : item.subtitle = "" ∨ item.subtitle.length ≤ max_chars
    · simp [h]
    · simp only [h, if_neg, ite_false]
      by_cases h1 : (split_text_str item.subtitle max_chars).length ≤ 1
      · simp [h1]
      · simp only [h1, if_neg, ite_false]
        right
        exact mapWithIndex_map_eq _ Item.subtitle (fun i a => rfl) 0 _

/-- Witness for C9 at a short caption. -/
theorem split_item_if_needed_short_and_order_witness :
    (({ subtitle := "短字幕" } : Item).subtitle = "" ∨
        ({ subtitle := "短字幕" } : Item).subtitle.length ≤ 50) ∧
      split_item_if_needed { subtitle := "短字幕" } 50 = [{ subtitle := "短字幕" }] :=
  ⟨Or.inr (by decide),
    (split_item_if_needed_short_and_order { subtitle := "短字幕" } 50).1
      (Or.inr (by decide))⟩

/-- A concrete Item with a long comma-separated subtitle, a `Prompt` and an
`Image` but no audio path — the shape `split_item_if_needed` receives from
the main pipeline, which splits the cleaned Items (`title`, `subtitle`,
`Prompt`, `Image` only). -/
def itemLongNoAudio : Item :=
  { title := "标题", subtitle := "一二三四五六七八九十，甲乙丙丁戊己庚辛壬癸子丑",
    Prompt := "提示词", Image := "temp/images/image_2.jpg" }

/-- C6 counterexample: splitting `itemLongNoAudio` at `max_chars = 20`
yields two Items, so the claim's "no other field of the source Item is
changed" fails (the caption field itself carries the chunk and differs
from the source), and "every output Item records a provenance marker
linking it back to the source's positional identity" fails (the marker is
`None` because the source has no `audio_<n>` path — the main pipeline
always splits such audio-less cleaned Items). -/
theorem split_item_changes_subtitle_and_drops_marker :
    1 < (split_item_if_needed itemLongNoAudio 20).length ∧
      ((split_item_if_needed itemLongNoAudio 20).all
        (fun j => j.subtitle == itemLongNoAudio.subtitle)) = false ∧
      ((split_item_if_needed itemLongNoAudio 20).all
        (fun j => j.splitIndex.isSome)) = false := by
  decide

/-- C6 amended: in the split case every output Item keeps the source's
`title`, `TextTop`, `TextBottom`, `Prompt` and `Image`, carries one chunk
as its caption (in order), has `audio` and `duration` cleared, and has
`_split_index` equal to `<base>_<k+1>` when the source audio path matches
`audio_<base>` and `None` otherwise. -/
theorem split_item_if_needed_fields (item : Item) (max_chars : ℕ)
    (h1 : ¬(item.subtitle = "" ∨ item.subtitle.length ≤ max_chars))
    (h2 : 1 < (split_text_str item.subtitle max_chars).length) :
    (split_item_if_needed item max_chars).map Item.subtitle =
        split_text_str item.subtitle max_chars ∧
      (∀ j ∈ split_item_if_needed item max_chars,
        j.title = item.title ∧ j.TextTop = item.TextTop ∧
        j.TextBottom = item.TextBottom ∧ j.Prompt = item.Prompt ∧
        j.Image = item.Image ∧ j.audio = "" ∧ j.duration = none) ∧
      (∀ k (hk : k < (split_item_if_needed item max_chars).length),
        ((split_item_if_needed item max_chars).get ⟨k, hk⟩).splitIndex =
          (extractBaseIndex item.audio).map (fun b => b ++ "_" ++ toString (k + 1))) := by
  have hnot : ¬(split_text_str item.subtitle max_chars).length ≤ 1 := by omega
  refine ⟨?_, ?_, ?_⟩
  · unfold split_item_if_needed
    simp only [h1, if_neg, ite_false, hnot]
    exact mapWithIndex_map_eq _ Item.subtitle (fun i a => rfl) 0 _
  · intro j hj
    unfold split_item_if_needed at hj
    simp only [h1, if_neg, ite_false, hnot] at hj
    rcases mapWithIndex_mem _ 0 _ j hj with ⟨i, a, _, rfl⟩
    exact ⟨rfl, rfl, rfl, rfl, rfl, rfl, rfl⟩
  · have heq : split_item_if_needed item max_chars =
        mapWithIndex
          (fun i sub =>
            { item with
                subtitle := sub
                audio := ""
                duration := none
                splitIndex := (extractBaseIndex item.audio).map
                  (fun b => b ++ "_" ++ toString (i + 1)) })
          0 (split_text_str item.subtitle max_chars) := by
      unfold split_item_if_needed
      simp only [h1, if_neg, ite_false, hnot]
    intro k hk
    have hk2 : k < (split_text_str item.subtitle max_chars).length := by
      have hk0 := hk
      rw [heq, mapWithIndex_length] at hk0
      exact hk0
    rw [List.get_of_eq heq, mapWithIndex_get _ 0 _ k _ hk2]
    simp

/-- Witness for C6 at an Item whose audio path carries a base index
(`audio_7`), exercising the `<base>_<k+1>` marker branch. -/
theorem split_item_if_needed_fields_witness :
    (¬(({ itemLongNoAudio with audio := "temp\\audio\\audio_7.mp3" } : Item).subtitle = "" ∨
        ({ itemLongNoAudio with audio := "temp\\audio\\audio_7.mp3" } : Item).subtitle.length ≤ 20)) ∧
      ((split_item_if_needed { itemLongNoAudio with audio := "temp\\audio\\audio_7.mp3" } 20).map
          Item.subtitle =
        split_text_str ({ itemLongNoAudio with audio := "temp\\audio\\audio_7.mp3" } : Item).subtitle 20 ∧
      (∀ j ∈ split_item_if_needed { itemLongNoAudio with audio := "temp\\audio\\audio_7.mp3" } 20,
        j.title = ({ itemLongNoAudio with audio := "temp\\audio\\audio_7.mp3" } : Item).title ∧
        j.TextTop = ({ itemLongNoAudio with audio := "temp\\audio\\audio_7.mp3" } : Item).TextTop ∧
        j.TextBottom = ({ itemLongNoAudio with audio := "temp\\audio\\audio_7.mp3" } : Item).TextBottom ∧
        j.Prompt = ({ itemLongNoAudio with audio := "temp\\audio\\audio_7.mp3" } : Item).Prompt ∧
        j.Image = ({ itemLongNoAudio with audio := "temp\\audio\\audio_7.mp3" } : Item).Image ∧
        j.audio = "" ∧ j.duration = none) ∧
      (∀ k (hk : k < (split_item_if_needed
          { itemLongNoAudio with audio := "temp\\audio\\audio_7.mp3" } 20).length),
        ((split_item_if_needed
            { itemLongNoAudio with audio := "temp\\audio\\audio_7.mp3" } 20).get ⟨k, hk⟩).splitIndex =
          (extractBaseIndex ({ itemLongNoAudio with
              audio := "temp\\audio\\audio_7.mp3" } : Item).audio).map
            (fun b => b ++ "_" ++ toString (k + 1)))) :=
  ⟨by decide,
    split_item_if_needed_fields { itemLongNoAudio with audio := "temp\\audio\\audio_7.mp3" } 20
      (by decide) (by decide)⟩

/-! ### Generation stages

Each stage walks the Item list in index order.  The external collaborator
(LLM / image service / speech synthesis) is an oracle indexed by the item
position; `none`/`false` is a raised exception or failed call.  Each step
reports what it did, so the "skipped" observations are part of the model. -/

inductive StageAct where
  | skipped
  | warned
  | generated
  | failed
deriving DecidableEq

/-- Loop body of `PromptGenerator.generate_image_prompts`: skip when
`Prompt` is truthy; warn when both `title` and `subtitle` are missing;
otherwise ask the oracle (the chat completion over the cover/content
template, which only shapes the request) and append the unified style
prompt on success. -/
def prompt_step (oracle : ℕ → Option String) (unified_prompt : String)
    (i : ℕ) (item : Item) : Item × StageAct :=
  if item.Prompt ≠ "" then (item, .skipped)
  else if item.title = "" ∧ item.subtitle = "" then (item, .warned)
  else
    match oracle i with
    | some content_prompt =>
      ({ item with Prompt := content_prompt ++ unified_prompt }, .generated)
    | none => (item, .failed)

/-- `PromptGenerator.generate_image_prompts(items, ...)`. -/
def generate_image_prompts (oracle : ℕ → Option String) (unified_prompt : String)
    (items : List Item) : List Item × List StageAct :=
  let res := mapWithIndex (prompt_step oracle unified_prompt) 0 items
  (res.map Prod.fst, res.map Prod.snd)

/-- Loop body of `ImageGenerator.generate_images_batch`: skip when `Image`
is truthy; warn when `Prompt` is missing; otherwise call the image service
and store the output path `output_dir/image_<i+1>.jpg` on success. -/
def image_step (oracle : ℕ → Bool) (output_dir : String) (i : ℕ) (item : Item) :
    Item × StageAct :=
  if item.Image ≠ "" then (item, .skipped)
  else if item.Prompt = "" then (item, .warned)
  else if oracle i then
    ({ item with Image := output_dir ++ "/image_" ++ toString (i + 1) ++ ".jpg" }, .generated)
  else (item, .failed)

/-- `ImageGenerator.generate_images_batch(items, output_dir, ...)`. -/
def generate_images_batch (oracle : ℕ → Bool) (output_dir : String)
    (items : List Item) : List Item × List StageAct :=
  let res := mapWithIndex (image_step oracle output_dir) 0 items
  (res.map Prod.fst, res.map Prod.snd)

/-- Loop body of `voice_generator.generate_audio_for_items`: skip when
`audio` is truthy; warn when both `TextTop` and `TextBottom` are missing;
otherwise synthesize (both-voices-and-merge, top-only or bottom-only — all
three branches store `audio_dir/audio_<i+1>.mp3` on success, and the
`except` clause continues on failure). -/
def audio_step (oracle : ℕ → Bool) (audio_dir : String) (i : ℕ) (item : Item) :
    Item × StageAct :=
  if item.audio ≠ "" then (item, .skipped)
  else if item.TextTop = "" ∧ item.TextBottom = "" then (item, .warned)
  else if oracle i then
    ({ item with audio := audio_dir ++ "/audio_" ++ toString (i + 1) ++ ".mp3" }, .generated)
  else (item, .failed)

/-- `voice_generator.generate_audio_for_items(items, template, audio_dir)`. -/
def generate_audio_for_items (oracle : ℕ → Bool) (audio_dir : String)
    (items : List Item) : List Item × List StageAct :=
  let res := mapWithIndex (audio_step oracle audio_dir) 0 items
  (res.map Prod.fst, res.map Prod.snd)

theorem mapWithIndex_all_skip (f : ℕ → Item → Item × StageAct) (items : List Item)
    (h : ∀ i it, it ∈ items → f i it = (it, .skipped)) :
    ∀ n : ℕ, (mapWithIndex f n items).map Prod.fst = items ∧
      (mapWithIndex f n items).map Prod.snd = List.replicate items.length .skipped := by
  induction items with
  | nil => intro n; exact ⟨rfl, rfl⟩
  | cons a as ih =>
    intro n
    have ha := h n a (List.mem_cons_self a as)
    have ih2 := ih (fun i it hit => h i it (List.mem_cons_of_mem a hit)) (n + 1)
    simp [mapWithIndex, ha, ih2.1, ih2.2, List.replicate_succ]

/-- C2: running any generation stage over a sequence in which every Item
already has that stage's target field populated (`Prompt`, `Image`,
`audio` respectively) returns the sequence unchanged, every Item observed
as skipped, whatever the external oracle would answer. -/
theorem stages_idempotent_when_populated (pOracle : ℕ → Option String)
    (unified_prompt : String) (iOracle aOracle : ℕ → Bool)
    (output_dir audio_dir : String) (items : List Item) :
    ((∀ it ∈ items, it.Prompt ≠ "") →
        generate_image_prompts pOracle unified_prompt items =
          (items, List.replicate items.length .skipped)) ∧
      ((∀ it ∈ items, it.Image ≠ "") →
        generate_images_batch iOracle output_dir items =
          (items, List.replicate items.length .skipped)) ∧
      ((∀ it ∈ items, it.audio ≠ "") →
        generate_audio_for_items aOracle audio_dir items =
          (items, List.replicate items.length .skipped)) := by
  refine ⟨fun h => ?_, fun h => ?_, fun h => ?_⟩
  · have hs := mapWithIndex_all_skip (prompt_step pOracle unified_prompt) items
      (fun i it hit => by simp [prompt_step, h it hit]) 0
    unfold generate_image_prompts
    rw [Prod.ext_iff]
    exact ⟨hs.1, hs.2⟩
  · have hs := mapWithIndex_all_skip (image_step iOracle output_dir) items
      (fun i it hit => by simp [image_step, h it hit]) 0
    unfold generate_images_batch
    rw [Prod.ext_iff]
    exact ⟨hs.1, hs.2⟩
  · have hs := mapWithIndex_all_skip (audio_step aOracle audio_dir) items
      (fun i it hit => by simp [audio_step, h it hit]) 0
    unfold generate_audio_for_items
    rw [Prod.ext_iff]
    exact ⟨hs.1, hs.2⟩

/-- A fully populated two-Item sequence for the C2 witness. -/
def populatedItems : List Item :=
  [{ title := "封面", subtitle := "开场", Prompt := "p1", Image := "i1.jpg",
     audio := "a1.mp3", duration := some 2 },
   { title := "第一段", subtitle := "内容", Prompt := "p2", Image := "i2.jpg",
     audio := "a2.mp3", duration := some 3 }]

/-- Witness for C2: all three stages leave `populatedItems` untouched and
report two skips each, under oracles that would otherwise overwrite. -/
theorem stages_idempotent_when_populated_witness :
    generate_image_prompts (fun _ => some "覆盖") "，统一风格" populatedItems =
        (populatedItems, List.replicate populatedItems.length .skipped) ∧
      generate_images_batch (fun _ => true) "temp/images" populatedItems =
        (populatedItems, List.replicate populatedItems.length .skipped) ∧
      generate_audio_for_items (fun _ => true) "temp/audio" populatedItems =
        (populatedItems, List.replicate populatedItems.length .skipped) :=
  ⟨(stages_idempotent_when_populated (fun _ => some "覆盖") "，统一风格" (fun _ => true)
      (fun _ => true) "temp/images" "temp/audio" populatedItems).1 (by decide),
    (stages_idempotent_when_populated (fun _ => some "覆盖") "，统一风格" (fun _ => true)
      (fun _ => true) "temp/images" "temp/audio" populatedItems).2.1 (by decide),
    (stages_idempotent_when_populated (fun _ => some "覆盖") "，统一风格" (fun _ => true)
      (fun _ => true) "temp/images" "temp/audio" populatedItems).2.2 (by decide)⟩

/-! ### Audio measurement and the Slide builder

`probe` is the media library boundary (`AudioFileClip(...).duration`):
`some d` is a successful measurement, `none` a raised exception anywhere in
the `try` block. -/

/-- `utils.calculate_audio_duration(audio_file)`: return the measured
duration, or `0.0` when the library raised. -/
def calculate_audio_duration (probe : String → Option ℚ) (audio_file : String) : ℚ :=
  match probe audio_file with
  | some duration => duration
  | none => 0

/-- C10: `calculate_audio_duration` is total at its interface — it is a
function into ℚ (never raises: the `except` branch is the `none` case of
the probe oracle), returns `0.0` on any failure to open or measure, and
returns the measured duration otherwise, so callers branch on the zero
value. -/
theorem calculate_audio_duration_total (probe : String → Option ℚ) (audio_file : String) :
    (probe audio_file = none → calculate_audio_duration probe audio_file = 0) ∧
      (∀ d, probe audio_file = some d → calculate_audio_duration probe audio_file = d) := by
  constructor
  · intro h
    simp [calculate_audio_duration, h]
  · intro d h
    simp [calculate_audio_duration, h]

/-- Witness for C10: a failing probe yields `0.0`, a measuring probe yields
its value. -/
theorem calculate_audio_duration_total_witness :
    calculate_audio_duration (fun _ => none) "missing.mp3" = 0 ∧
      calculate_audio_duration (fun _ => some (5 / 2)) "ok.mp3" = 5 / 2 :=
  ⟨(calculate_audio_duration_total (fun _ => none) "missing.mp3").1 rfl,
    (calculate_audio_duration_total (fun _ => some (5 / 2)) "ok.mp3").2 (5 / 2) rfl⟩

/-- The duration block of `utils.generate_slide_list_from_items`: use the
recorded value unless it is missing or `0`; otherwise measure, and replace
a `0` measurement by the `3.0` default. -/
def resolveDuration (probe : String → Option ℚ) (item : Item) : ℚ :=
  match item.duration with
  | some v =>
    if v = 0 then
      let m := calculate_audio_duration probe item.audio
      if m = 0 then 3 else m
    else v
  | none =>
    let m := calculate_audio_duration probe item.audio
    if m = 0 then 3 else m

structure Slide where
  image : String
  audio : String
  title : String
  subtitle : String
  duration : ℚ
deriving DecidableEq

/-- `utils.generate_slide_list_from_items(items)`: skip (with a warning)
Items missing `Image` or `audio`, resolve the duration, and emit a Slide.
(The source also writes the resolved duration back into the item; only the
returned slide list matters to the claims.) -/
def generate_slide_list_from_items (probe : String → Option ℚ) (items : List Item) :
    List Slide :=
  items.filterMap fun item =>
    if item.Image = "" ∨ item.audio = "" then none
    else some
      { image := item.Image, audio := item.audio, title := item.title,
        subtitle := item.subtitle, duration := resolveDuration probe item }

/-- C3 amended: the duration of each built Slide is resolved exactly as the
claim's cases say (recorded nonzero value; else measured value when
nonzero — in particular when positive; else the 3.0 default, which also
covers measurement failure since `calculate_audio_duration` returns 0
then); and every built Slide has strictly positive duration **provided**
recorded durations and probe measurements are nonnegative — the code
trusts a nonzero recorded value as-is, so a negative recorded duration
defeats the positivity guarantee (see the counterexample). -/
theorem slide_duration_resolution (probe : String → Option ℚ) (items : List Item) :
    (∀ item : Item,
      (∀ v, item.duration = some v → v ≠ 0 → resolveDuration probe item = v) ∧
      ((item.duration = none ∨ item.duration = some 0) →
        (calculate_audio_duration probe item.audio ≠ 0 →
          resolveDuration probe item = calculate_audio_duration probe item.audio) ∧
        (calculate_audio_duration probe item.audio = 0 →
          resolveDuration probe item = 3))) ∧
      (∀ s ∈ generate_slide_list_from_items probe items, ∃ item ∈ items,
        item.Image ≠ "" ∧ item.audio ≠ "" ∧ s.image = item.Image ∧
        s.audio = item.audio ∧ s.duration = resolveDuration probe item) ∧
      ((∀ it ∈ items, ∀ v, it.duration = some v → 0 ≤ v) →
        (∀ f d, probe f = some d → 0 ≤ d) →
        ∀ s ∈ generate_slide_list_from_items probe items, 0 < s.duration) := by
  have hres : ∀ item : Item,
      (∀ v, item.duration = some v → v ≠ 0 → resolveDuration probe item = v) ∧
      ((item.duration = none ∨ item.duration = some 0) →
        (calculate_audio_duration probe item.audio ≠ 0 →
          resolveDuration probe item = calculate_audio_duration probe item.audio) ∧
        (calculate_audio_duration probe item.audio = 0 →
          resolveDuration probe item = 3)) := by
    intro item
    constructor
    · intro v hv hvz
      simp [resolveDuration, hv, hvz]
    · rintro (h | h) <;> constructor <;> intro hm <;> simp [resolveDuration, h, hm]
  have hmem : ∀ s ∈ generate_slide_list_from_items probe items, ∃ item ∈ items,
      item.Image ≠ "" ∧ item.audio ≠ "" ∧ s.image = item.Image ∧
      s.audio = item.audio ∧ s.duration = resolveDuration probe item := by
    intro s hs
    rcases List.mem_filterMap.mp hs with ⟨item, hitem, hsome⟩
    by_cases hbad : item.Image = "" ∨ item.audio = ""
    · simp [hbad] at hsome
    · push_neg at hbad
      simp only [hbad.1, hbad.2, or_self, if_neg, ite_false, Option.some.injEq] at hsome
      · refine ⟨item, hitem, hbad.1, hbad.2, ?_⟩
        rw [← hsome]
        exact ⟨rfl, rfl, rfl⟩
  refine ⟨hres, hmem, ?_⟩
  intro hrec hprobe s hs
  rcases hmem s hs with ⟨item, hitem, _, _, _, _, hdur⟩
  have hm_nonneg : 0 ≤ calculate_audio_duration probe item.audio := by
    unfold calculate_audio_duration
    cases hp : probe item.audio with
    | none => exact le_refl 0
    | some d => exact hprobe item.audio d hp
  rw [hdur]
  unfold resolveDuration
  cases hd : item.duration with
  | none =>
    by_cases hm : calculate_audio_duration probe item.audio = 0
    · simp [hm]
    · simp only [hm, if_neg, ite_false]
      exact lt_of_le_of_ne hm_nonneg (Ne.symm hm)
  | some v =>
    have hv_nonneg : 0 ≤ v := hrec item hitem v hd
    by_cases hv : v = 0
    · by_cases hm : calculate_audio_duration probe item.audio = 0
      · simp [hv, hm]
      · simp only [hv, if_pos, hm, ite_false, if_neg]
        exact lt_of_le_of_ne hm_nonneg (Ne.symm hm)
    · simp only [hv, if_neg, ite_false]
      exact lt_of_le_of_ne hv_nonneg (Ne.symm hv)

/-- An Item carrying a (hand-edited) negative recorded duration. -/
def itemNegDuration : Item :=
  { Image := "temp/images/image_1.jpg", audio := "temp/audio/audio_1.mp3",
    duration := some (-1) }

/-- C3 counterexample: with a recorded duration of `-1` (nonzero, so the
code uses it as-is), the built Slide's duration is `-1` — the claim's
"every constructed Slide has a strictly positive duration" is false. -/
theorem slide_duration_not_always_positive :
    (generate_slide_list_from_items (fun _ => none) [itemNegDuration]).map Slide.duration =
        [(-1 : ℚ)] ∧
      ¬(0 : ℚ) < -1 := by
  constructor
  · rfl
  · norm_num

/-- Witness for C3 at a one-Item list with no recorded duration and a
failing probe: the Slide gets the 3.0 default, which is positive. -/
theorem slide_duration_resolution_witness :
    (∀ it ∈ [({ Image := "i.jpg", audio := "a.mp3" } : Item)],
        ∀ v, it.duration = some v → (0 : ℚ) ≤ v) ∧
      (∀ s ∈ generate_slide_list_from_items (fun _ => none)
          [({ Image := "i.jpg", audio := "a.mp3" } : Item)], 0 < s.duration) :=
  have hrec : ∀ it ∈ [({ Image := "i.jpg", audio := "a.mp3" } : Item)],
      ∀ v, it.duration = some v → (0 : ℚ) ≤ v := by
    intro it hit v hv
    rcases List.mem_singleton.mp hit with rfl
    simp at hv
  ⟨hrec,
    (slide_duration_resolution (fun _ => none)
        [({ Image := "i.jpg", audio := "a.mp3" } : Item)]).2.2 hrec
      (fun f d h => by cases h)⟩

/-! ### JSON values

The persisted files go through `json.load`/`json.dump`; text serialization
is the json library boundary, so the store is modelled at the level of
JSON trees.  Items in the store are whatever JSON objects the file holds —
the loaders do not validate item fields. -/

inductive JsonV where
  | null
  | bool (b : Bool)
  | num (q : ℚ)
  | str (s : String)
  | arr (xs : List JsonV)
  | obj (kvs : List (String × JsonV))

/-- First value bound to a key in a JSON object. -/
def lookupKey (k : String) (kvs : List (String × JsonV)) : Option JsonV :=
  match kvs.find? (fun p => p.1 == k) with
  | some p => some p.2
  | none => none

/-- Python truthiness of a JSON-decoded value. -/
def truthy : JsonV → Bool
  | .null => false
  | .bool b => b
  | .num q => q ≠ 0
  | .str s => s ≠ ""
  | .arr xs => !xs.isEmpty
  | .obj kvs => !kvs.isEmpty

/-! ### Item Store (`utils.load_items_from_json` / `utils.save_items_to_json`) -/

/-- `utils.save_items_to_json(items, path)`: dump the list as a bare JSON
array. -/
def save_items_to_json (items : List JsonV) : JsonV :=
  .arr items

/-- `utils.load_items_from_json(path)`: require a bare JSON array and
return its elements in order; any other shape raises. -/
def load_items_from_json (j : JsonV) : Except String (List JsonV) :=
  match j with
  | .arr items => .ok items
  | _ => .error "JSON格式错误：必须是数组格式"

/-- Modelled from the spec: the second accepted on-disk shape — an object
with required key `items` and optional key `template` defaulting to
`"default"` — is loaded by the TextTop/TextBottom pipeline variant, whose
loader is not among the sources under `src/`; this definition follows the
spec's words (§6, Persisted item file). -/
def load_items_wrapper (j : JsonV) : Except String (String × List JsonV) :=
  match j with
  | .obj kvs =>
    match lookupKey "items" kvs with
    | some (.arr items) =>
      let template :=
        match lookupKey "template" kvs with
        | some (.str s) => s
        | _ => "default"
      .ok (template, items)
    | _ => .error "missing items"
  | _ => .error "not an object"

/-- Modelled from the spec: saving in the wrapper shape writes the template
name and the ordered item array. -/
def save_items_wrapper (template : String) (items : List JsonV) : JsonV :=
  .obj [("template", .str template), ("items", .arr items)]

/-- C4: save-then-load round-trips every Item (JSON object) with identical
fields and original order, in both accepted on-disk shapes; the wrapper
shape defaults the template name to `"default"` when absent. -/
theorem item_store_round_trip :
    (∀ items : List JsonV, load_items_from_json (save_items_to_json items) = .ok items) ∧
      (∀ (template : String) (items : List JsonV),
        load_items_wrapper (save_items_wrapper template items) = .ok (template, items)) ∧
      (∀ items : List JsonV,
        load_items_wrapper (.obj [("items", .arr items)]) = .ok ("default", items)) := by
  refine ⟨fun items => rfl, fun template items => ?_, fun items => rfl⟩
  simp [load_items_wrapper, save_items_wrapper, lookupKey, List.find?]

/-! ### Run-input loader (`utils.load_input_config`) -/

structure InputConfig where
  video_size : JsonV
  images : JsonV
  voice : JsonV
  font : JsonV
  font_color : JsonV
  font_size : JsonV
  name : JsonV
  text : JsonV
  style : JsonV

/-- The `required_fields` list of `load_input_config` — note it names the
misspelled `iamges`, not `images`. -/
def required_fields : List String :=
  ["video_size", "iamges", "voice", "font", "font_color", "font_size", "name", "text"]

/-- `utils.load_input_config(path)`: require an object, require every key
in `required_fields`, read the segment count as
`data.get('iamges') or data.get('images', 0)`, default `style` to
`"插画"`. -/
def load_input_config (j : JsonV) : Except String InputConfig :=
  match j with
  | .obj kvs =>
    let missing := required_fields.filter (fun k => (lookupKey k kvs).isNone)
    if missing.isEmpty then
      let images_count :=
        match lookupKey "iamges" kvs with
        | some v => if truthy v then v else (lookupKey "images" kvs).getD (.num 0)
        | none => (lookupKey "images" kvs).getD (.num 0)
      .ok
        { video_size := (lookupKey "video_size" kvs).getD .null
          images := images_count
          voice := (lookupKey "voice" kvs).getD .null
          font := (lookupKey "font" kvs).getD .null
          font_color := (lookupKey "font_color" kvs).getD .null
          font_size := (lookupKey "font_size" kvs).getD .null
          name := (lookupKey "name" kvs).getD .null
          text := (lookupKey "text" kvs).getD .null
          style := (lookupKey "style" kvs).getD (.str "插画") }
    else .error "JSON格式错误：缺少必需字段"
  | _ => .error "JSON格式错误：必须是对象格式"

def exceptIsOk : Except ε α → Bool
  | .ok _ => true
  | .error _ => false

/-- A run input using only the canonical `images` spelling (all other
required keys present). -/
def cfgCanonicalImages : JsonV :=
  .obj [("video_size", .arr [.num 1080, .num 1920]), ("images", .num 3),
    ("voice", .str "zh-CN-XiaoxiaoNeural"), ("font", .str "./resource/f.ttf"),
    ("font_color", .str "#FFFFFF"), ("font_size", .num 50),
    ("name", .str "demo"), ("text", .str "正文内容")]

/-- C8 counterexample: an input that provides the segment count only under
the canonical key `images` is rejected — `required_fields` literally
demands the misspelled `iamges`, so the two keys are not synonyms for
acceptance. -/
theorem load_input_config_rejects_canonical_images :
    load_input_config cfgCanonicalImages = .error "JSON格式错误：缺少必需字段" := by
  rfl

/-- C8 amended: the loader requires exactly `required_fields` (including
the misspelled `iamges`) and raises when any is missing; when it accepts,
the segment count is the `iamges` value if truthy and otherwise the
`images` value (defaulting to `0`), and the optional `style` defaults to
the fixed style `"插画"` when absent. -/
theorem load_input_config_spec (kvs : List (String × JsonV)) :
    (exceptIsOk (load_input_config (.obj kvs)) = true ↔
        ∀ k ∈ required_fields, (lookupKey k kvs).isSome) ∧
      (∀ cfg, load_input_config (.obj kvs) = .ok cfg →
        (∀ v, lookupKey "iamges" kvs = some v → truthy v → cfg.images = v) ∧
        (∀ v, lookupKey "iamges" kvs = some v → ¬truthy v →
          cfg.images = (lookupKey "images" kvs).getD (.num 0)) ∧
        (lookupKey "style" kvs = none → cfg.style = .str "插画") ∧
        (∀ v, lookupKey "style" kvs = some v → cfg.style = v)) := by
  have hmiss : (required_fields.filter (fun k => (lookupKey k kvs).isNone)).isEmpty = true ↔
      ∀ k ∈ required_fields, (lookupKey k kvs).isSome := by
    rw [List.isEmpty_iff, List.filter_eq_nil_iff]
    constructor
    · intro h k hk
      have := h k hk
      simp only [Option.isNone_iff_eq_none] at this
      cases hv : lookupKey k kvs with
      | none => exact absurd hv this
      | some v => rfl
    · intro h k hk
      have := h k hk
      simp only [Option.isNone_iff_eq_none]
      intro hnone
      rw [hnone] at this
      cases this
  constructor
  · unfold load_input_config
    by_cases hm : (required_fields.filter (fun k => (lookupKey k kvs).isNone)).isEmpty
    · simp only [hm, if_pos]
      simpa [exceptIsOk] using hmiss.mp hm
    · simp only [hm, Bool.false_eq_true, if_neg, ite_false]
      constructor
      · intro h
        cases h
      · intro h
        exact absurd (hmiss.mpr h) hm
  · intro cfg hcfg
    unfold load_input_config at hcfg
    by_cases hm : (required_fields.filter (fun k => (lookupKey k kvs).isNone)).isEmpty
    · simp only [hm, if_pos, Except.ok.injEq] at hcfg
      refine ⟨?_, ?_, ?_, ?_⟩
      · intro v hv htr
        rw [← hcfg]
        simp [hv, htr]
      · intro v hv htr
        rw [← hcfg]
        simp [hv, htr]
      · intro hstyle
        rw [← hcfg]
        simp [hstyle]
      · intro v hstyle
        rw [← hcfg]
        simp [hstyle]
    · simp only [hm, Bool.false_eq_true, if_neg, ite_false] at hcfg
      cases hcfg

/-- A complete run input (misspelled key present, no style). -/
def cfgComplete : List (String × JsonV) :=
  [("video_size", .arr [.num 1080, .num 1920]), ("iamges", .num 3),
    ("voice", .str "zh-CN-XiaoxiaoNeural"), ("font", .str "./resource/f.ttf"),
    ("font_color", .str "#FFFFFF"), ("font_size", .num 50),
    ("name", .str "demo"), ("text", .str "正文内容")]

/-- Witness for C8: the complete input is accepted, and its config takes
the truthy `iamges` value and the default style. -/
theorem load_input_config_spec_witness :
    exceptIsOk (load_input_config (.obj cfgComplete)) = true ∧
      (∀ cfg, load_input_config (.obj cfgComplete) = .ok cfg →
        (∀ v, lookupKey "iamges" cfgComplete = some v → truthy v → cfg.images = v) ∧
        (∀ v, lookupKey "iamges" cfgComplete = some v → ¬truthy v →
          cfg.images = (lookupKey "images" cfgComplete).getD (.num 0)) ∧
        (lookupKey "style" cfgComplete = none → cfg.style = .str "插画") ∧
        (∀ v, lookupKey "style" cfgComplete = some v → cfg.style = v)) :=
  ⟨(load_input_config_spec cfgComplete).1.mpr (by decide),
    (load_input_config_spec cfgComplete).2⟩

/-! ### Script generation (`PromptGenerator.generate_video_script`)

The chat-completion request, the markdown-fence stripping and `json.loads`
are the external/library boundary: `coverReply`/`contentReply` is the
parsed JSON value of each reply, `none` when the call raised or the reply
was unparsable.  The shape checks performed by the source itself
(`isinstance` and the required-key test) are modelled below. -/

/-- Modelled from the spec: `DEFAULT_COVER` lives in the `prompt_templates`
module, which is not among the sources under `src/`; per the spec it is the
deterministic default cover Item (a `title`/`subtitle` object). -/
def DEFAULT_COVER : JsonV :=
  .obj [("title", .str "精彩内容"), ("subtitle", .str "接下来带你快速了解这个话题")]

/-- The cover `try` block of `generate_video_script`: keep the parsed reply
when it is a dict with `title` and `subtitle`; every failure (call raised,
unparsable, not a dict, missing key) lands in the `except` and appends
`DEFAULT_COVER`. -/
def cover_try_block (coverReply : Option JsonV) : List JsonV :=
  match coverReply with
  | some (.obj kvs) =>
    if (lookupKey "title" kvs).isSome ∧ (lookupKey "subtitle" kvs).isSome then
      [JsonV.obj kvs]
    else [DEFAULT_COVER]
  | some _ => [DEFAULT_COVER]
  | none => [DEFAULT_COVER]

/-- `PromptGenerator.generate_video_script(text, num_segments)`: cover
block, then the content `try` block, which extends with the parsed list
when the reply parses to a list (a wrong segment count only logs a
warning) and appends nothing on any failure.  `text` and `num_segments`
only shape the request to the external service, absorbed here by the
oracle replies. -/
def generate_video_script (text : String) (coverReply contentReply : Option JsonV)
    (num_segments : ℕ) : List JsonV :=
  let cover_items := cover_try_block coverReply
  match contentReply with
  | some (.arr content_items) => cover_items ++ content_items
  | some _ => cover_items
  | none => cover_items

theorem cover_try_block_length (coverReply : Option JsonV) :
    (cover_try_block coverReply).length = 1 := by
  rcases coverReply with _ | j
  · rfl
  · rcases j with _ | b | q | s | xs | kvs <;> try rfl
    unfold cover_try_block
    by_cases h : (lookupKey "title" kvs).isSome ∧ (lookupKey "subtitle" kvs).isSome <;>
      simp [h]

theorem generate_video_script_eq (text : String) (coverReply contentReply : Option JsonV)
    (n : ℕ) :
    generate_video_script text coverReply contentReply n =
      match contentReply with
      | some (.arr content_items) => cover_try_block coverReply ++ content_items
      | some _ => cover_try_block coverReply
      | none => cover_try_block coverReply := rfl

/-- C7 counterexample: when the multi-segment request fails, the stage
returns only the (default) cover — zero content segments — and not the
claimed naive proportional split of the source text into the requested
`num_segments = 3` segments (which would make 1 + 3 items). -/
theorem script_failure_yields_no_content_segments :
    generate_video_script "这是一段需要被拆分成三段的原始输入文本。" none none 3 =
        [DEFAULT_COVER] ∧
      (generate_video_script "这是一段需要被拆分成三段的原始输入文本。" none none 3).length ≠
        1 + 3 := by
  exact ⟨rfl, by decide⟩

/-- C7 amended: script generation never raises past the stage boundary (it
is a total function of the oracle replies, always yielding at least the
cover); a failed or malformed cover request falls back to the default
cover item, while a well-formed cover reply is kept as-is; a failed or
malformed multi-segment request contributes no content segments, so the
result is the single cover item. -/
theorem generate_video_script_fallback (text : String) (n : ℕ) :
    (∀ contentReply,
        (generate_video_script text none contentReply n).head? = some DEFAULT_COVER) ∧
      (∀ coverReply contentReply,
        (generate_video_script text coverReply contentReply n).head? = some DEFAULT_COVER ∨
          ∃ kvs, coverReply = some (JsonV.obj kvs) ∧
            (lookupKey "title" kvs).isSome ∧ (lookupKey "subtitle" kvs).isSome ∧
            (generate_video_script text coverReply contentReply n).head? =
              some (JsonV.obj kvs)) ∧
      (∀ coverReply contentReply,
        (∀ l, contentReply ≠ some (JsonV.arr l)) →
          (generate_video_script text coverReply contentReply n).length = 1) ∧
      (∀ coverReply contentReply,
        1 ≤ (generate_video_script text coverReply contentReply n).length) := by
  have hhead : ∀ coverReply contentReply,
      (generate_video_script text coverReply contentReply n).head? =
        (cover_try_block coverReply).head? := by
    intro coverReply contentReply
    rw [generate_video_script_eq]
    rcases contentReply with _ | j
    · rfl
    · rcases j with _ | b | q | s | xs | kvs
      case arr =>
        have h1 := cover_try_block_length coverReply
        cases hc : cover_try_block coverReply with
        | nil => rw [hc] at h1; cases h1
        | cons a l => simp
      all_goals rfl
  refine ⟨fun contentReply => ?_, fun coverReply contentReply => ?_,
    fun coverReply contentReply hc => ?_, fun coverReply contentReply => ?_⟩
  · rw [hhead]
    rfl
  · rcases coverReply with _ | j
    · left
      rw [hhead]
      rfl
    · rcases j with _ | b | q | s | xs | kvs
      case obj =>
        by_cases h : (lookupKey "title" kvs).isSome ∧ (lookupKey "subtitle" kvs).isSome
        · right
          refine ⟨kvs, rfl, h.1, h.2, ?_⟩
          rw [hhead]
          unfold cover_try_block
          simp [h]
        · left
          rw [hhead]
          unfold cover_try_block
          simp [h]
      all_goals
        left
        rw [hhead]
        rfl
  · rw [generate_video_script_eq]
    rcases contentReply with _ | j
    · exact cover_try_block_length coverReply
    · rcases j with _ | b | q | s | xs | kvs
      case arr => exact absurd rfl (hc xs)
      all_goals exact cover_try_block_length coverReply
  · rw [generate_video_script_eq]
    rcases contentReply with _ | j
    · rw [cover_try_block_length coverReply]
    · rcases j with _ | b | q | s | xs | kvs
      case arr =>
        rw [List.length_append, cover_try_block_length coverReply]
        omega
      all_goals rw [cover_try_block_length coverReply]

/-- Witness for C7: a non-object cover reply with a failed content call
gives a single item, and a failed cover call yields the default cover. -/
theorem generate_video_script_fallback_witness :
    (generate_video_script "输入文本" (some (.str "不是对象")) none 2).length = 1 ∧
      (generate_video_script "输入文本" none none 2).head? = some DEFAULT_COVER :=
  ⟨(generate_video_script_fallback "输入文本" 2).2.2.1 (some (.str "不是对象")) none
      (fun l h => Option.noConfusion h),
    (generate_video_script_fallback "输入文本" 2).1 none⟩

/-! ### Composition geometry (`VideoGenerator.create_video`, per-slide
image layout)

The arithmetic in the source runs on Python floats; here it is exact
rational arithmetic, with Python's `int()` truncation of the nonnegative
products modelled as the floor.  The moviepy calls are modelled by their
documented geometry: `resized((w, h))` yields those pixel dimensions, and
`cropped(x_center, y_center, width, height)` takes the window
`[x_center - width/2, x_center + width/2] × [y_center - height/2,
y_center + height/2]` and yields a `width × height` clip. -/

structure SlideLayout where
  scale : ℚ
  new_width : ℕ
  new_height : ℕ
  crop_applied : Bool
  cropX1 : ℚ
  cropX2 : ℚ
  cropY1 : ℚ
  cropY2 : ℚ
  final_width : ℕ
  final_height : ℕ

/-- The image-layout steps of `create_video` for one slide: scale by
`max(target_w / img_w, target_h / img_h)`, truncate the scaled dimensions
to integers, center-crop to the frame when either axis exceeds it, and
defensively force-resize whenever the dimensions still differ from the
frame. -/
def create_video_layout (video_w video_h img_w img_h : ℕ) : SlideLayout :=
  let scale_w : ℚ := (video_w : ℚ) / (img_w : ℚ)
  let scale_h : ℚ := (video_h : ℚ) / (img_h : ℚ)
  let scale := max scale_w scale_h
  let new_width := (⌊(img_w : ℚ) * scale⌋).toNat
  let new_height := (⌊(img_h : ℚ) * scale⌋).toNat
  let crop_applied := video_w < new_width ∨ video_h < new_height
  let cropped_w := if crop_applied then video_w else new_width
  let cropped_h := if crop_applied then video_h else new_height
  let final_w := if cropped_w ≠ video_w ∨ cropped_h ≠ video_h then video_w else cropped_w
  let final_h := if cropped_w ≠ video_w ∨ cropped_h ≠ video_h then video_h else cropped_h
  { scale := scale
    new_width := new_width
    new_height := new_height
    crop_applied := crop_applied
    cropX1 := (new_width : ℚ) / 2 - (video_w : ℚ) / 2
    cropX2 := (new_width : ℚ) / 2 + (video_w : ℚ) / 2
    cropY1 := (new_height : ℚ) / 2 - (video_h : ℚ) / 2
    cropY2 := (new_height : ℚ) / 2 + (video_h : ℚ) / 2
    final_width := final_w
    final_height := final_h }

/-- C5: the scale factor is the max of the two axis ratios (never the
smaller), the scaled image covers the target frame on both axes, the
center-crop window lies inside the scaled image (so cropping introduces no
blank/transparent border), and the final pixel dimensions equal the target
frame exactly. -/
theorem create_video_layout_cover_crop (video_w video_h img_w img_h : ℕ)
    (hw : 0 < img_w) (hh : 0 < img_h) :
    ((video_w : ℚ) / (img_w : ℚ) ≤ (create_video_layout video_w video_h img_w img_h).scale ∧
        (video_h : ℚ) / (img_h : ℚ) ≤ (create_video_layout video_w video_h img_w img_h).scale) ∧
      (video_w ≤ (create_video_layout video_w video_h img_w img_h).new_width ∧
        video_h ≤ (create_video_layout video_w video_h img_w img_h).new_height) ∧
      (0 ≤ (create_video_layout video_w video_h img_w img_h).cropX1 ∧
        (create_video_layout video_w video_h img_w img_h).cropX2 ≤
          ((create_video_layout video_w video_h img_w img_h).new_width : ℚ) ∧
        0 ≤ (create_video_layout video_w video_h img_w img_h).cropY1 ∧
        (create_video_layout video_w video_h img_w img_h).cropY2 ≤
          ((create_video_layout video_w video_h img_w img_h).new_height : ℚ)) ∧
      ((create_video_layout video_w video_h img_w img_h).final_width = video_w ∧
        (create_video_layout video_w video_h img_w img_h).final_height = video_h) := by
  have hwq : (0 : ℚ) < (img_w : ℚ) := by exact_mod_cast hw
  have hhq : (0 : ℚ) < (img_h : ℚ) := by exact_mod_cast hh
  set scale : ℚ := max ((video_w : ℚ) / (img_w : ℚ)) ((video_h : ℚ) / (img_h : ℚ)) with hscale
  have hsw : (video_w : ℚ) / (img_w : ℚ) ≤ scale := le_max_left _ _
  have hsh : (video_h : ℚ) / (img_h : ℚ) ≤ scale := le_max_right _ _
  have hcov_w : (video_w : ℚ) ≤ (img_w : ℚ) * scale := by
    have := mul_le_mul_of_nonneg_left hsw (le_of_lt hwq)
    rwa [mul_div_cancel₀ _ (ne_of_gt hwq)] at this
  have hcov_h : (video_h : ℚ) ≤ (img_h : ℚ) * scale := by
    have := mul_le_mul_of_nonneg_left hsh (le_of_lt hhq)
    rwa [mul_div_cancel₀ _ (ne_of_gt hhq)] at this
  have hfloor_w : (video_w : ℤ) ≤ ⌊(img_w : ℚ) * scale⌋ := by
    rw [Int.le_floor]
    exact_mod_cast hcov_w
  have hfloor_h : (video_h : ℤ) ≤ ⌊(img_h : ℚ) * scale⌋ := by
    rw [Int.le_floor]
    exact_mod_cast hcov_h
  have hnw : video_w ≤ (⌊(img_w : ℚ) * scale⌋).toNat := by
    omega
  have hnh : video_h ≤ (⌊(img_h : ℚ) * scale⌋).toNat := by
    omega
  have hnwq : (video_w : ℚ) ≤ ((⌊(img_w : ℚ) * scale⌋).toNat : ℚ) := by
    exact_mod_cast hnw
  have hnhq : (video_h : ℚ) ≤ ((⌊(img_h : ℚ) * scale⌋).toNat : ℚ) := by
    exact_mod_cast hnh
  refine ⟨⟨hsw, hsh⟩, ⟨hnw, hnh⟩, ⟨by unfold create_video_layout; dsimp; linarith,
    by unfold create_video_layout; dsimp; linarith,
    by unfold create_video_layout; dsimp; linarith,
    by unfold create_video_layout; dsimp; linarith⟩, ?_⟩
  unfold create_video_layout
  dsimp
  by_cases hcrop : video_w < (⌊(img_w : ℚ) * scale⌋).toNat ∨
      video_h < (⌊(img_h : ℚ) * scale⌋).toNat
  · simp only [hcrop, if_pos]
    simp
  · simp only [hcrop, if_neg, ite_false]
    push_neg at hcrop
    have hew : (⌊(img_w : ℚ) * scale⌋).toNat = video_w := le_antisymm hcrop.1 hnw
    have heh : (⌊(img_h : ℚ) * scale⌋).toNat = video_h := le_antisymm hcrop.2 hnh
    simp [hew, heh]

/-- Witness for C5 at a 3000×1000 image fit into a 1080×1920 frame. -/
theorem create_video_layout_cover_crop_witness :
    0 < 3000 ∧ 0 < 1000 ∧
      ((create_video_layout 1080 1920 3000 1000).final_width = 1080 ∧
        (create_video_layout 1080 1920 3000 1000).final_height = 1920) ∧
      1080 ≤ (create_video_layout 1080 1920 3000 1000).new_width ∧
      1920 ≤ (create_video_layout 1080 1920 3000 1000).new_height :=
  ⟨by decide, by decide,
    (create_video_layout_cover_crop 1080 1920 3000 1000 (by decide) (by decide)).2.2.2,
    (create_video_layout_cover_crop 1080 1920 3000 1000 (by decide) (by decide)).2.1⟩

end AutoVedio
